import Mathlib

/-!
Verification of the worksheet assembly pipeline of `src/main.py`
(chinese-worksheets): a shallow embedding of the lexicon filter, the CJK
classifier, the document compositor, the worksheet combiner and the
orchestrator loop, together with theorems settling the specification
claims about them.

Conventions of the embedding:
* PDF documents handled by the external `pymupdf` library are modelled as
  lists of pages; a page carries its bounding rectangle and the ordered
  list of content items layered onto it.
* The filesystem is an explicit map from path strings to optional
  documents; saving is modelled as the save event (target path and save
  mode) the code emits.
* Python exceptions are modelled with `Except`: a raised exception is an
  `Except.error` value that propagates exactly where the source code would
  let the exception propagate.
-/

namespace ChineseWorksheets

/-! ## Lexicon data model (`CedictEntry` as consumed by `lookup_chinese`) -/

/-- A dictionary record: traditional form, simplified form, ordered
meaning strings. -/
structure CedictEntry where
  traditional : String
  simplified : String
  meanings : List String

/-- Boolean test that `needle` starts the list `hay` (helper for the
substring test used to model the Python `in` operator). -/
def charsStartWith : List Char → List Char → Bool
  | _, [] => true
  | [], _ :: _ => false
  | h :: hs, n :: ns => h == n && charsStartWith hs ns

/-- Boolean test that `needle` occurs contiguously inside `hay`. -/
def charsHaveInfix (needle : List Char) : List Char → Bool
  | [] => charsStartWith [] needle
  | c :: rest => charsStartWith (c :: rest) needle || charsHaveInfix needle rest

/-- Model of the Python expression `sub in s` on strings. -/
def strContains (s sub : String) : Bool :=
  charsHaveInfix sub.toList s.toList

/-- The filtering step of `lookup_chinese` (src/main.py lines 189-200):
a meaning survives iff it does not start with "surname" and contains
none of "variant of", "CL:", "(slang)". -/
def meaningKept (result : String) : Bool :=
  if result.startsWith "surname" then false
  else if strContains result "variant of" then false
  else if strContains result "CL:" then false
  else if strContains result "(slang)" then false
  else true

/-- Embedding of `lookup_chinese` (src/main.py lines 179-202): gather the
meanings of every entry whose traditional or simplified form equals the
word, filter them, return the first three. -/
def lookup_chinese (word : String) (entries : List CedictEntry) : List String :=
  let results : List String := entries.foldl
    (fun acc entry =>
      if entry.traditional == word || entry.simplified == word then
        acc ++ entry.meanings
      else acc) []
  let filtered_results := results.filter meaningKept
  filtered_results.take 3

/-! ## CJK classifier (`is_chinese_char`, src/main.py lines 13-44) -/

/-- The twelve code-point ranges of `is_chinese_char`. -/
def chineseRanges : List (Nat × Nat) :=
  [(0x4E00, 0x9FFF),
   (0x3400, 0x4DBF),
   (0x20000, 0x2A6DF),
   (0x2A700, 0x2B73F),
   (0x2B740, 0x2B81F),
   (0x2B820, 0x2CEAF),
   (0x2CEB0, 0x2EBEF),
   (0x30000, 0x3134F),
   (0x31350, 0x323AF),
   (0x2EBF0, 0x2EE5F),
   (0xF900, 0xFAFF),
   (0x2F800, 0x2FA1F)]

/-- Model of Python `ord` applied to the first character of a string
(only consulted when the string has length one). -/
def charOrd (char : String) : Nat :=
  match char.toList with
  | c :: _ => c.toNat
  | [] => 0

/-- Embedding of `is_chinese_char`: false unless the string has length
one; otherwise true iff the code point lies in one of the twelve ranges. -/
def is_chinese_char (char : String) : Bool :=
  if char.length ≠ 1 then false
  else
    let code_point := charOrd char
    chineseRanges.any fun r => decide (r.1 ≤ code_point) && decide (code_point ≤ r.2)

/-! ## Document model (pymupdf documents as page lists) -/

/-- An axis-aligned rectangle in page coordinates. -/
structure Rect where
  x0 : ℚ
  y0 : ℚ
  x1 : ℚ
  y1 : ℚ
deriving DecidableEq

/-- A point (x, y) lies strictly inside the rectangle. -/
def Rect.interiorMem (r : Rect) (x y : ℚ) : Prop :=
  r.x0 < x ∧ x < r.x1 ∧ r.y0 < y ∧ y < r.y1

/-- One content item layered onto a page: an html text box or an image. -/
inductive Content where
  | text (rect : Rect) (body : String)
  | image (rect : Rect) (filename : String)
deriving DecidableEq

/-- A page: its bounding rectangle plus the ordered content layered onto
it (template content first, overlays appended in insertion order). -/
structure Page where
  bound : Rect
  contents : List Content
deriving DecidableEq

/-- A pymupdf document, reduced to its ordered page list. -/
structure PDFDoc where
  pages : List Page
deriving DecidableEq

/-- The two save modes of `doc.save` as used by the source:
`incremental` is `save(..., incremental=True, encryption=0)`;
`compaction` is `save(..., deflate=True, garbage=3, use_objstms=1)`. -/
inductive SaveMode where
  | incremental
  | compaction
deriving DecidableEq

/-- A save event: the target path and the mode the document was saved
with. -/
abbrev SaveEvent := String × SaveMode

/-- Errors raised by the pymupdf layer: `documentLoadError` when a path
does not hold a readable document, `pageNotFoundError` when `doc[0]` is
taken on a document with no pages. -/
inductive PdfError where
  | documentLoadError
  | pageNotFoundError
deriving DecidableEq

/-- The filesystem as seen by the pdf layer: a map from paths to the
documents stored there. -/
abbrev DocStore := String → Option PDFDoc

/-- Embedding of `add_text_to_pdf` (src/main.py lines 89-106): open the
input, insert an html text box into page 0, then save incrementally when
input and output paths are equal and with full compaction otherwise.
Returns the document as saved and the save event. -/
def add_text_to_pdf (fs : DocStore) (input_pdf_path : String) (text : String)
    (rect : Rect) (output_pdf_path : String) : Except PdfError (PDFDoc × SaveEvent) :=
  match fs input_pdf_path with
  | none => Except.error PdfError.documentLoadError
  | some doc =>
    match doc.pages with
    | [] => Except.error PdfError.pageNotFoundError
    | page :: rest =>
      let page2 : Page := ⟨page.bound, page.contents ++ [Content.text rect text]⟩
      let mode := if input_pdf_path = output_pdf_path then SaveMode.incremental
        else SaveMode.compaction
      Except.ok (⟨page2 :: rest⟩, (output_pdf_path, mode))

/-- The image rectangle computed by `add_image_to_pdf` from the page
bound: offset from the top right corner. -/
def imageRect (page_rect : Rect) : Rect :=
  ⟨page_rect.x1 - 125, 10, page_rect.x1 - 10, 125⟩

/-- Embedding of `add_image_to_pdf` (src/main.py lines 109-121): open the
input, insert the stroke-order image into page 0 at a rectangle anchored
to the top right corner of the page bound, then save with the same mode
choice as `add_text_to_pdf`. -/
def add_image_to_pdf (fs : DocStore) (input_pdf_path : String) (image_path : String)
    (output_pdf_path : String) : Except PdfError (PDFDoc × SaveEvent) :=
  match fs input_pdf_path with
  | none => Except.error PdfError.documentLoadError
  | some doc =>
    match doc.pages with
    | [] => Except.error PdfError.pageNotFoundError
    | page :: rest =>
      let page2 : Page :=
        ⟨page.bound, page.contents ++ [Content.image (imageRect page.bound) image_path]⟩
      let mode := if input_pdf_path = output_pdf_path then SaveMode.incremental
        else SaveMode.compaction
      Except.ok (⟨page2 :: rest⟩, (output_pdf_path, mode))

/-! ## Worksheet combiner (`combine_worksheets`, src/main.py lines 124-135) -/

/-- Error raised when a document to combine cannot be read; it names the
offending path. -/
inductive CombineError where
  | unreadable (path : String)
deriving DecidableEq

/-- The pages stored at a path, empty when the path is unreadable (only
consulted under readability hypotheses). -/
def pagesOf (fs : DocStore) (path : String) : List Page :=
  match fs path with
  | some doc => doc.pages
  | none => []

/-- The loop of `combine_worksheets`: for each input path open it and
append all of its pages (`doc.insert_pdf(temp_doc)`) to the aggregate. -/
def combineLoop (fs : DocStore) : List String → PDFDoc → Except CombineError PDFDoc
  | [], doc => Except.ok doc
  | path :: rest, doc =>
    match fs path with
    | none => Except.error (CombineError.unreadable path)
    | some temp_doc => combineLoop fs rest ⟨doc.pages ++ temp_doc.pages⟩

/-- Embedding of `combine_worksheets`: start from a fresh empty document
(`pymupdf.open()`), fold all input documents in order, then save the
aggregate once with full compaction. -/
def combine_worksheets (fs : DocStore) (input_pdf_paths : List String)
    (output_pdf_path : String) : Except CombineError (PDFDoc × List SaveEvent) :=
  match combineLoop fs input_pdf_paths ⟨[]⟩ with
  | Except.error e => Except.error e
  | Except.ok doc => Except.ok (doc, [(output_pdf_path, SaveMode.compaction)])

/-! ## Per-character composition (`process_raw_worksheet`, src/main.py
lines 138-170) -/

/-- The pinyin text rectangle passed to the first text overlay
(src/main.py line 152). -/
def pinyin_rect : Rect := ⟨50, 50, 200, 500⟩

/-- The definitions text rectangle passed to the second text overlay
(src/main.py line 161). -/
def definitions_rect : Rect := ⟨50, 495, 800, 800⟩

/-- Saving a document to a path updates the document store at that path. -/
def saveTo (fs : DocStore) (path : String) (doc : PDFDoc) : DocStore :=
  fun p => if p = path then some doc else fs p

/-- Embedding of `process_raw_worksheet`: overlay the pinyin text onto
the raw worksheet saving to the final path, then the definitions text
(joined with the line break tag) onto the final path in place, then the
stroke order image in place. Returns the resulting document store and
the three save events in order; any pdf error propagates. -/
def process_raw_worksheet (fs : DocStore) (raw_worksheet_path : String)
    (pinyin_str : String) (stroke_order_image_path : String)
    (definitions : List String) (final_worksheet_path : String) :
    Except PdfError (DocStore × List SaveEvent) := do
  let r1 ← add_text_to_pdf fs raw_worksheet_path pinyin_str pinyin_rect final_worksheet_path
  let fs1 := saveTo fs final_worksheet_path r1.1
  let definitions_formatted := String.intercalate "<br>" definitions
  let r2 ← add_text_to_pdf fs1 final_worksheet_path definitions_formatted definitions_rect
    final_worksheet_path
  let fs2 := saveTo fs1 final_worksheet_path r2.1
  let r3 ← add_image_to_pdf fs2 final_worksheet_path stroke_order_image_path
    final_worksheet_path
  pure (saveTo fs2 final_worksheet_path r3.1, [r1.2, r2.2, r3.2])

/-! ## Asset download (`download_binary` / `download_files`,
src/main.py lines 47-86) and the orchestrator loop (`main`,
src/main.py lines 205-257).

The network is an oracle `fetch : String → Option Bytes` from urls to
response bodies (`none` models any request failure, including a non-2xx
status raised by `raise_for_status`). The observable behaviour of the
loop is recorded as a list of events in program order. -/

abbrev Bytes := List Nat

/-- Observable events of one orchestrator run, in program order. -/
inductive Event where
  /-- The character failed classification and was skipped. -/
  | skippedNonChinese (char : String)
  /-- A url was fetched and its body written to the output path. -/
  | downloaded (url : String)
  /-- A fetch failed; the failure was printed and swallowed. -/
  | downloadFailed (url : String)
  /-- The `--no-dl` flag suppressed a download. -/
  | downloadSkipped (url : String)
  /-- A final worksheet path was appended to `worksheet_paths`. -/
  | appendedPath (path : String)
  /-- `process_raw_worksheet` returned normally for the character. -/
  | composed (char : String)
  /-- `process_raw_worksheet` raised the given error for the character. -/
  | composeFailed (char : String) (e : PdfError)
  /-- `combine_worksheets` was invoked with the accumulated paths. -/
  | combineCalled (paths : List String)
deriving DecidableEq

/-- Embedding of `download_binary`: on success the body is written to the
output path, on any failure the error is printed and swallowed; the
function always returns normally. Result: the file writes performed and
the events observed. -/
def download_binary (fetch : String → Option Bytes) (url : String)
    (out_path : String) : List (String × Bytes) × List Event :=
  match fetch url with
  | some content => ([(out_path, content)], [Event.downloaded url])
  | none => ([], [Event.downloadFailed url])

/-- Stroke-order image url for a character (src/main.py line 68). -/
def image_url (char : String) : String :=
  "https://www.strokeorder.com/assets/bishun/guide/" ++ toString (charOrd char) ++ ".png"

/-- Raw worksheet url for a character (src/main.py line 77). -/
def worksheet_url (char : String) : String :=
  "https://www.strokeorder.com/assets/bishun/worksheets/pdf/2/" ++ toString (charOrd char)
    ++ ".pdf"

/-- Stroke-order image output path for a character (src/main.py line 69,
with `out_dir = "output"`). -/
def image_path (char : String) : String :=
  "output/" ++ char ++ "_stroke_order.png"

/-- Raw worksheet output path for a character (src/main.py line 78). -/
def raw_worksheet_path (char : String) : String :=
  "output/" ++ char ++ "_raw_worksheet.pdf"

/-- Final worksheet path for a character (src/main.py line 247). -/
def worksheetPath (char : String) : String :=
  "output/worksheet_" ++ char ++ ".pdf"

/-- The download events of `download_files` for one character: both
assets in order, each skipped under `--no-dl` and otherwise delegated to
`download_binary`. -/
def charDownloadEvents (fetch : String → Option Bytes) (no_dl : Bool)
    (char : String) : List Event :=
  (if no_dl then [Event.downloadSkipped (image_url char)]
   else (download_binary fetch (image_url char) (image_path char)).2)
  ++
  (if no_dl then [Event.downloadSkipped (worksheet_url char)]
   else (download_binary fetch (worksheet_url char) (raw_worksheet_path char)).2)

/-- The per-character loop of `main` (src/main.py lines 241-254) over the
iteration sequence of `set(characters)`, with the outcome of
`process_raw_worksheet` abstracted as the oracle `compose`. For each
character: a classification failure is logged and the loop continues; a
classified character first has its final path appended to the
accumulator, then its assets downloaded, then its worksheet composed; a
composition error propagates immediately (no handler exists in the
source), abandoning the rest of the loop. Returns the events observed
and either the accumulated path list or the propagated error. -/
def mainLoop (fetch : String → Option Bytes) (compose : String → Except PdfError Unit)
    (no_dl : Bool) : List String → List String → List Event × Except PdfError (List String)
  | [], acc => ([], Except.ok acc)
  | char :: rest, acc =>
    if is_chinese_char char = false then
      let r := mainLoop fetch compose no_dl rest acc
      (Event.skippedNonChinese char :: r.1, r.2)
    else
      let path := worksheetPath char
      let dls := charDownloadEvents fetch no_dl char
      match compose char with
      | Except.error e =>
        (Event.appendedPath path :: dls ++ [Event.composeFailed char e], Except.error e)
      | Except.ok _ =>
        let r := mainLoop fetch compose no_dl rest (acc ++ [path])
        (Event.appendedPath path :: dls ++ Event.composed char :: r.1, r.2)

/-- Embedding of `main` after argument parsing (src/main.py lines
240-257): run the per-character loop from an empty accumulator; when it
returns normally invoke the combiner on the accumulated paths; when a
composition error propagates, the run aborts with it and the combiner is
never invoked. -/
def mainRun (fetch : String → Option Bytes) (compose : String → Except PdfError Unit)
    (no_dl : Bool) (chars : List String) : List Event × Except PdfError Unit :=
  let r := mainLoop fetch compose no_dl chars []
  match r.2 with
  | Except.ok paths => (r.1 ++ [Event.combineCalled paths], Except.ok ())
  | Except.error e => (r.1, Except.error e)

/-- The paths `main` collects when every composition succeeds: one final
worksheet path per classified character, in iteration order. -/
def collectedPaths (chars : List String) : List String :=
  (chars.filter fun c => is_chinese_char c).map worksheetPath

/-- Recognizer for the combiner invocation event. -/
def isCombineEvent : Event → Bool
  | Event.combineCalled _ => true
  | _ => false

/-- Recognizer for a successful composition event. -/
def isComposedEvent : Event → Bool
  | Event.composed _ => true
  | _ => false

/-- Recognizer for download-related events (success, failure, skip). -/
def isDownloadEvent : Event → Bool
  | Event.downloaded _ => true
  | Event.downloadFailed _ => true
  | Event.downloadSkipped _ => true
  | _ => false

/-- The accumulator appends of a trace, in order. -/
def appendedOf : List Event → List String
  | [] => []
  | Event.appendedPath p :: rest => p :: appendedOf rest
  | _ :: rest => appendedOf rest

/-- The match test of the lookup scan: the traditional or the simplified
form of the entry equals the word. -/
def entryMatches (word : String) (entry : CedictEntry) : Bool :=
  entry.traditional == word || entry.simplified == word

/-! ## Orchestrator loop with the download-to-composition coupling

`mainLoop` above abstracts the outcome of `process_raw_worksheet` as an
oracle, which is enough for the claims that quantify over every
composition outcome, but it severs the path by which a download failure
reaches composition in the program: `download_binary` writes the fetched
raw worksheet to disk, and `process_raw_worksheet` reopens that very
file. The refined model below keeps that coupling. The `DocStore`
carried through the loop abstracts the pdf files on disk by the document
they load as: a path holding no file, or a file `pymupdf.open` cannot
read, maps to `none`. A successful fetch of the worksheet url stores
`parsePdf content` at the raw worksheet path (the written file loads as
that document, or as nothing when the body is not a readable pdf); a
failed fetch is swallowed by `download_binary` and writes nothing, so
the store is unchanged. Composition is then the `process_raw_worksheet`
embedding itself, run on that store. Image files are not pdf documents
and live outside the store: the embedded `add_image_to_pdf` receives the
image path as an opaque filename, as the compositor contract in the
spec describes. -/

/-- The effect of `download_files` on the pdf files on disk for one
character: under `--no-dl` nothing is written; otherwise a successful
fetch of the worksheet url stores the document its body loads as at the
raw worksheet path, and a failed fetch leaves the store unchanged. -/
def worksheet_download_fs (fetch : String → Option Bytes)
    (parsePdf : Bytes → Option PDFDoc) (no_dl : Bool) (char : String)
    (fs : DocStore) : DocStore :=
  if no_dl then fs
  else
    match fetch (worksheet_url char) with
    | some content =>
      fun p => if p = raw_worksheet_path char then parsePdf content else fs p
    | none => fs

/-- The per-character loop of `main` (src/main.py lines 241-254) with
composition derived from the document store: for each classified
character the final path is appended, the assets are downloaded (the
worksheet write updating the store), and `process_raw_worksheet` runs on
the store with the pinyin of the character and its `lookup_chinese`
definitions; its error propagates immediately, exactly as in `mainLoop`. -/
def mainLoopFS (fetch : String → Option Bytes) (parsePdf : Bytes → Option PDFDoc)
    (no_dl : Bool) (pinyinOf : String → String) (entries : List CedictEntry) :
    List String → List String → DocStore →
      List Event × Except PdfError (List String × DocStore)
  | [], acc, fs => ([], Except.ok (acc, fs))
  | char :: rest, acc, fs =>
    if is_chinese_char char = false then
      let r := mainLoopFS fetch parsePdf no_dl pinyinOf entries rest acc fs
      (Event.skippedNonChinese char :: r.1, r.2)
    else
      let path := worksheetPath char
      let dls := charDownloadEvents fetch no_dl char
      let fs1 := worksheet_download_fs fetch parsePdf no_dl char fs
      match process_raw_worksheet fs1 (raw_worksheet_path char) (pinyinOf char)
          (image_path char) (lookup_chinese char entries) path with
      | Except.error e =>
        (Event.appendedPath path :: dls ++ [Event.composeFailed char e], Except.error e)
      | Except.ok r2 =>
        let r := mainLoopFS fetch parsePdf no_dl pinyinOf entries rest (acc ++ [path]) r2.1
        (Event.appendedPath path :: dls ++ Event.composed char :: r.1, r.2)

/-- `main` over the refined loop: run from an empty accumulator and the
given document store; on normal return the combiner is invoked on the
accumulated paths, and a propagated composition error aborts the run
before the combiner, exactly as in `mainRun`. -/
def mainRunFS (fetch : String → Option Bytes) (parsePdf : Bytes → Option PDFDoc)
    (no_dl : Bool) (pinyinOf : String → String) (entries : List CedictEntry)
    (fs : DocStore) (chars : List String) : List Event × Except PdfError Unit :=
  let r := mainLoopFS fetch parsePdf no_dl pinyinOf entries chars [] fs
  match r.2 with
  | Except.ok res => (r.1 ++ [Event.combineCalled res.1], Except.ok ())
  | Except.error e => (r.1, Except.error e)

/-! ## Concrete fixtures used by witnesses and counterexamples -/

/-- A one-content page carrying a tag, used to tell pages apart. -/
def mkPage (tag : String) : Page :=
  ⟨⟨0, 0, 612, 792⟩, [Content.text ⟨0, 0, 1, 1⟩ tag]⟩

/-- A one-page sample document. -/
def docA : PDFDoc := ⟨[mkPage "A1"]⟩

/-- A two-page sample document. -/
def docB : PDFDoc := ⟨[mkPage "B1", mkPage "B2"]⟩

/-- A document store holding `docA` and `docB`. -/
def sampleStore : DocStore := fun p =>
  if p = "output/a.pdf" then some docA
  else if p = "output/b.pdf" then some docB
  else none

/-- A composition oracle that always raises `DocumentLoadError`. -/
def failCompose : String → Except PdfError Unit :=
  fun _ => Except.error PdfError.documentLoadError

/-- A composition oracle that always succeeds. -/
def okCompose : String → Except PdfError Unit :=
  fun _ => Except.ok ()

/-- A network oracle for which every fetch succeeds. -/
def fetchOk : String → Option Bytes :=
  fun _ => some [0]

/-- A network oracle for which every fetch fails. -/
def fetchFail : String → Option Bytes :=
  fun _ => none

/-- A document store with no readable document at any path. -/
def emptyStore : DocStore :=
  fun _ => none

/-- A parse oracle under which no fetched body loads as a document. -/
def parseNone : Bytes → Option PDFDoc :=
  fun _ => none

/-! ## Helper lemmas -/

lemma combineLoop_ok (fs : DocStore) :
    ∀ (paths : List String), (∀ p ∈ paths, (fs p).isSome = true) →
      ∀ pgs : List Page,
        combineLoop fs paths ⟨pgs⟩ =
          Except.ok ⟨pgs ++ (paths.map (pagesOf fs)).flatten⟩ := by
  intro paths
  induction paths with
  | nil => intro _ pgs; simp [combineLoop]
  | cons p rest ih =>
    intro h pgs
    obtain ⟨d, hd⟩ := Option.isSome_iff_exists.mp (h p (List.mem_cons_self p rest))
    have hrest : ∀ q ∈ rest, (fs q).isSome = true :=
      fun q hq => h q (List.mem_cons_of_mem p hq)
    simp only [combineLoop, hd]
    rw [ih hrest (pgs ++ d.pages)]
    simp [pagesOf, hd, List.append_assoc]

@[simp] lemma appendedOf_skipped (c : String) (t : List Event) :
    appendedOf (Event.skippedNonChinese c :: t) = appendedOf t := rfl

@[simp] lemma appendedOf_composed (c : String) (t : List Event) :
    appendedOf (Event.composed c :: t) = appendedOf t := rfl

@[simp] lemma appendedOf_appendedPath (p : String) (t : List Event) :
    appendedOf (Event.appendedPath p :: t) = p :: appendedOf t := rfl

@[simp] lemma appendedOf_combineCalled (ps : List String) (t : List Event) :
    appendedOf (Event.combineCalled ps :: t) = appendedOf t := rfl

@[simp] lemma appendedOf_nil : appendedOf [] = [] := rfl

@[simp] lemma isDownloadEvent_skippedNonChinese (c : String) :
    isDownloadEvent (Event.skippedNonChinese c) = false := rfl

@[simp] lemma isDownloadEvent_appendedPath (p : String) :
    isDownloadEvent (Event.appendedPath p) = false := rfl

@[simp] lemma isDownloadEvent_composed (c : String) :
    isDownloadEvent (Event.composed c) = false := rfl

@[simp] lemma isDownloadEvent_composeFailed (c : String) (e : PdfError) :
    isDownloadEvent (Event.composeFailed c e) = false := rfl

@[simp] lemma isDownloadEvent_combineCalled (ps : List String) :
    isDownloadEvent (Event.combineCalled ps) = false := rfl

@[simp] lemma isDownloadEvent_downloaded (u : String) :
    isDownloadEvent (Event.downloaded u) = true := rfl

@[simp] lemma isDownloadEvent_downloadFailed (u : String) :
    isDownloadEvent (Event.downloadFailed u) = true := rfl

@[simp] lemma isDownloadEvent_downloadSkipped (u : String) :
    isDownloadEvent (Event.downloadSkipped u) = true := rfl

lemma appendedOf_append : ∀ l1 l2 : List Event,
    appendedOf (l1 ++ l2) = appendedOf l1 ++ appendedOf l2 := by
  intro l1 l2
  induction l1 with
  | nil => rfl
  | cons e rest ih => cases e <;> simp [appendedOf, ih]

lemma appendedOf_charDownloadEvents (f : String → Option Bytes) (n : Bool) (c : String) :
    appendedOf (charDownloadEvents f n c) = [] := by
  cases n
  · cases h1 : f (image_url c) <;> cases h2 : f (worksheet_url c) <;>
      simp [charDownloadEvents, download_binary, h1, h2, appendedOf]
  · simp [charDownloadEvents, appendedOf]

lemma charDownloadEvents_any_combine (f : String → Option Bytes) (n : Bool) (c : String) :
    (charDownloadEvents f n c).any isCombineEvent = false := by
  cases n
  · cases h1 : f (image_url c) <;> cases h2 : f (worksheet_url c) <;>
      simp [charDownloadEvents, download_binary, h1, h2, isCombineEvent]
  · simp [charDownloadEvents, isCombineEvent]

lemma bool_not_false {b : Bool} (h : ¬b = false) : b = true := by
  cases b
  · exact absurd rfl h
  · rfl

lemma mainLoop_all_ok (fetch : String → Option Bytes)
    (compose : String → Except PdfError Unit) (no_dl : Bool) :
    ∀ (cs : List String) (acc : List String),
      (∀ c ∈ cs, is_chinese_char c = true → compose c = Except.ok ()) →
      (mainLoop fetch compose no_dl cs acc).2 = Except.ok (acc ++ collectedPaths cs)
      ∧ appendedOf (mainLoop fetch compose no_dl cs acc).1 = collectedPaths cs := by
  intro cs
  induction cs with
  | nil => intro acc h; simp [mainLoop, collectedPaths, appendedOf]
  | cons c rest ih =>
    intro acc h
    have hrest : ∀ x ∈ rest, is_chinese_char x = true → compose x = Except.ok () :=
      fun x hx => h x (List.mem_cons_of_mem c hx)
    by_cases hc : is_chinese_char c = false
    · have hfilter : collectedPaths (c :: rest) = collectedPaths rest := by
        unfold collectedPaths
        rw [List.filter_cons_of_neg (by simp [hc])]
      have e1 : mainLoop fetch compose no_dl (c :: rest) acc =
          (Event.skippedNonChinese c :: (mainLoop fetch compose no_dl rest acc).1,
            (mainLoop fetch compose no_dl rest acc).2) := by
        simp [mainLoop, hc]
      obtain ⟨ha, hb⟩ := ih acc hrest
      rw [e1, hfilter]
      exact ⟨ha, by simpa [appendedOf] using hb⟩
    · have hct : is_chinese_char c = true := bool_not_false hc
      have hg : compose c = Except.ok () := h c (List.mem_cons_self c rest) hct
      have hfilter : collectedPaths (c :: rest) = worksheetPath c :: collectedPaths rest := by
        unfold collectedPaths
        rw [List.filter_cons_of_pos hct]
        rfl
      have e1 : mainLoop fetch compose no_dl (c :: rest) acc =
          (Event.appendedPath (worksheetPath c) :: charDownloadEvents fetch no_dl c ++
            Event.composed c ::
              (mainLoop fetch compose no_dl rest (acc ++ [worksheetPath c])).1,
            (mainLoop fetch compose no_dl rest (acc ++ [worksheetPath c])).2) := by
        simp [mainLoop, hct, hg]
      obtain ⟨ha, hb⟩ := ih (acc ++ [worksheetPath c]) hrest
      rw [e1, hfilter]
      constructor
      · rw [ha]
        simp
      · simp [appendedOf_append, appendedOf_charDownloadEvents, hb]

lemma mainLoop_no_combine (fetch : String → Option Bytes)
    (compose : String → Except PdfError Unit) (no_dl : Bool) :
    ∀ cs acc, ((mainLoop fetch compose no_dl cs acc).1.any isCombineEvent) = false := by
  intro cs
  induction cs with
  | nil => intro acc; simp [mainLoop]
  | cons c rest ih =>
    intro acc
    by_cases hc : is_chinese_char c = false
    · simp [mainLoop, hc, isCombineEvent, ih acc]
    · have hct : is_chinese_char c = true := bool_not_false hc
      cases hg : compose c with
      | error e =>
        simp [mainLoop, hct, hg, List.any_append, charDownloadEvents_any_combine,
          isCombineEvent]
      | ok u =>
        cases u
        simp [mainLoop, hct, hg, List.any_append, charDownloadEvents_any_combine,
          isCombineEvent, ih (acc ++ [worksheetPath c])]

lemma meaningKept_eq_true {m : String} (h : meaningKept m = true) :
    m.startsWith "surname" = false ∧ strContains m "variant of" = false ∧
      strContains m "CL:" = false ∧ strContains m "(slang)" = false := by
  cases h1 : m.startsWith "surname" <;>
    cases h2 : strContains m "variant of" <;>
      cases h3 : strContains m "CL:" <;>
        cases h4 : strContains m "(slang)" <;>
          simp_all [meaningKept]

lemma foldl_extend (word : String) (entries : List CedictEntry) :
    ∀ acc : List String,
      entries.foldl
        (fun acc entry =>
          if entry.traditional == word || entry.simplified == word then
            acc ++ entry.meanings
          else acc) acc =
      acc ++ (entries.filter (entryMatches word)).flatMap CedictEntry.meanings := by
  induction entries with
  | nil => intro acc; simp
  | cons e es ih =>
    intro acc
    rw [List.foldl_cons]
    by_cases h : entryMatches word e = true
    · have hb : (e.traditional == word || e.simplified == word) = true := h
      rw [if_pos hb, ih, List.filter_cons_of_pos h, List.flatMap_cons, List.append_assoc]
    · have hb : ¬(e.traditional == word || e.simplified == word) = true := h
      rw [if_neg hb, ih, List.filter_cons_of_neg h]

lemma lookup_chinese_eq (word : String) (entries : List CedictEntry) :
    lookup_chinese word entries =
      (((entries.filter (entryMatches word)).flatMap CedictEntry.meanings).filter
        meaningKept).take 3 := by
  unfold lookup_chinese
  rw [foldl_extend]
  simp

end ChineseWorksheets

namespace ChineseWorksheets

/-! ## Claim theorems -/

/-- C1: `lookup_chinese` returns the meanings of all entries whose
traditional or simplified field equals the word, concatenated in entry
scan order, filtered of meanings starting with "surname" or containing
"variant of", "CL:" or "(slang)", truncated to the first 3 elements
after filtering; hence the result has length at most 3, contains no
filtered string, and is empty (not an error) when no entry matches. -/
theorem claims_C1 : ∀ (word : String) (entries : List CedictEntry),
    lookup_chinese word entries =
      (((entries.filter (entryMatches word)).flatMap CedictEntry.meanings).filter
        meaningKept).take 3
    ∧ (lookup_chinese word entries).length ≤ 3
    ∧ (∀ m ∈ lookup_chinese word entries,
        m.startsWith "surname" = false ∧ strContains m "variant of" = false ∧
          strContains m "CL:" = false ∧ strContains m "(slang)" = false)
    ∧ ((∀ e ∈ entries, entryMatches word e = false) → lookup_chinese word entries = []) := by
  intro word entries
  refine ⟨lookup_chinese_eq word entries, ?_, ?_, ?_⟩
  · rw [lookup_chinese_eq]
    simp only [List.length_take]
    exact Nat.min_le_left 3 _
  · intro m hm
    rw [lookup_chinese_eq] at hm
    have hf := List.mem_of_mem_take hm
    exact meaningKept_eq_true (List.of_mem_filter hf)
  · intro hnone
    rw [lookup_chinese_eq]
    have : entries.filter (entryMatches word) = [] := by
      apply List.filter_eq_nil_iff.mpr
      intro e he
      simp [hnone e he]
    rw [this]
    rfl

/-- Witness for C1 at concrete inputs: the scenario of §8 example 1 of
the spec, and the no-match case. -/
theorem claims_C1_witness :
    (lookup_chinese "好"
      [⟨"好", "好", ["good", "surname Hao", "CL:個"]⟩]).length ≤ 3
    ∧ lookup_chinese "你" [] = [] :=
  ⟨(claims_C1 "好" [⟨"好", "好", ["good", "surname Hao", "CL:個"]⟩]).2.1,
   (claims_C1 "你" []).2.2.2 (by simp)⟩

/-- C9: for every single-character string the classifier returns true
iff the code point lies in one of the twelve CJK ranges, and it returns
false for any input whose length is not 1. -/
theorem claims_C9 : ∀ char : String,
    (char.length = 1 →
      (is_chinese_char char = true ↔
        ∃ r ∈ chineseRanges, r.1 ≤ charOrd char ∧ charOrd char ≤ r.2))
    ∧ (char.length ≠ 1 → is_chinese_char char = false)
    ∧ chineseRanges.length = 12 := by
  intro char
  refine ⟨fun h => ?_, fun h => ?_, rfl⟩
  · simp [is_chinese_char, h, List.any_eq_true]
  · simp [is_chinese_char, h]

/-- Witness for C9: the CJK character 好 is accepted, the two-character
string "ab" is rejected. -/
theorem claims_C9_witness :
    is_chinese_char "好" = true ∧ is_chinese_char "ab" = false :=
  ⟨((claims_C9 "好").1 (by decide)).mpr
      ⟨(0x4E00, 0x9FFF), by decide, by decide, by decide⟩,
   (claims_C9 "ab").2.1 (by decide)⟩

/-- C2: the combiner starts from a fresh empty document and appends all
pages of every input in list order, preserving page order within each
input and input order across inputs; in particular `combine([A, B])`
yields exactly the pages of A followed by the pages of B, and the
aggregate is written with structure compaction exactly once at the end. -/
theorem claims_C2 : ∀ (fs : DocStore) (paths : List String) (out : String),
    ((∀ p ∈ paths, (fs p).isSome = true) →
      combine_worksheets fs paths out =
        Except.ok (⟨(paths.map (pagesOf fs)).flatten⟩, [(out, SaveMode.compaction)]))
    ∧ (∀ pa pb A B, fs pa = some A → fs pb = some B →
        combine_worksheets fs [pa, pb] out =
          Except.ok (⟨A.pages ++ B.pages⟩, [(out, SaveMode.compaction)])) := by
  intro fs paths out
  constructor
  · intro h
    unfold combine_worksheets
    rw [show (⟨[]⟩ : PDFDoc) = ⟨([] : List Page)⟩ from rfl, combineLoop_ok fs paths h]
    simp
  · intro pa pb A B hA hB
    unfold combine_worksheets
    simp [combineLoop, hA, hB]

/-- Witness for C2 at concrete inputs: combining the stored one-page and
two-page sample documents yields their pages in order under one
compaction save. -/
theorem claims_C2_witness :
    combine_worksheets sampleStore ["output/a.pdf", "output/b.pdf"] "output/combined.pdf" =
      Except.ok (⟨docA.pages ++ docB.pages⟩, [("output/combined.pdf", SaveMode.compaction)]) :=
  (claims_C2 sampleStore ["output/a.pdf", "output/b.pdf"] "output/combined.pdf").2
    "output/a.pdf" "output/b.pdf" docA docB rfl rfl

/-- C3: both overlay operations choose the incremental save exactly when
the input and output paths coincide and the full compaction save
otherwise, and the saved document is the loaded document with the single
new overlay appended to the first page, all prior content preserved. -/
theorem claims_C3 : ∀ (fs : DocStore) (input output : String) (doc : PDFDoc)
    (page : Page) (rest : List Page),
    fs input = some doc → doc.pages = page :: rest →
    (∀ text rect,
      add_text_to_pdf fs input text rect output =
        Except.ok (⟨⟨page.bound, page.contents ++ [Content.text rect text]⟩ :: rest⟩,
          (output, if input = output then SaveMode.incremental else SaveMode.compaction)))
    ∧ (∀ image_file,
      add_image_to_pdf fs input image_file output =
        Except.ok
          (⟨⟨page.bound,
              page.contents ++ [Content.image (imageRect page.bound) image_file]⟩ :: rest⟩,
          (output, if input = output then SaveMode.incremental else SaveMode.compaction))) := by
  intro fs input output doc page rest hfs hp
  constructor
  · intro text rect
    simp [add_text_to_pdf, hfs, hp]
  · intro image_file
    simp [add_image_to_pdf, hfs, hp]

/-- Witness for C3: overlaying text onto the stored sample document in
place saves incrementally; overlaying an image to a fresh path saves
with compaction. -/
theorem claims_C3_witness :
    add_text_to_pdf sampleStore "output/a.pdf" "hao3" pinyin_rect "output/a.pdf" =
      Except.ok
        (⟨⟨(mkPage "A1").bound,
            (mkPage "A1").contents ++ [Content.text pinyin_rect "hao3"]⟩ :: []⟩,
        ("output/a.pdf", SaveMode.incremental))
    ∧ add_image_to_pdf sampleStore "output/a.pdf" "output/好_stroke_order.png"
        "output/fresh.pdf" =
      Except.ok
        (⟨⟨(mkPage "A1").bound,
            (mkPage "A1").contents ++
              [Content.image (imageRect (mkPage "A1").bound)
                "output/好_stroke_order.png"]⟩ :: []⟩,
        ("output/fresh.pdf", SaveMode.compaction)) := by
  have h := claims_C3 sampleStore "output/a.pdf" "output/a.pdf" docA (mkPage "A1") [] rfl rfl
  have h2 := claims_C3 sampleStore "output/a.pdf" "output/fresh.pdf" docA (mkPage "A1") [] rfl rfl
  refine ⟨?_, ?_⟩
  · simpa using h.1 "hao3" pinyin_rect
  · simpa using h2.2 "output/好_stroke_order.png"

/-- C6: combining the empty list of input paths yields a zero-page
output document without failing, and the orchestrator still reaches the
combine step (with the empty path list) when every requested character
fails classification. -/
theorem claims_C6 : ∀ (fs : DocStore) (out : String),
    combine_worksheets fs [] out = Except.ok (⟨[]⟩, [(out, SaveMode.compaction)])
    ∧ (⟨[]⟩ : PDFDoc).pages.length = 0
    ∧ (∀ fetch compose no_dl chars, (∀ c ∈ chars, is_chinese_char c = false) →
        Event.combineCalled [] ∈ (mainRun fetch compose no_dl chars).1) := by
  intro fs out
  refine ⟨rfl, rfl, ?_⟩
  intro fetch compose no_dl chars hall
  have hok : ∀ c ∈ chars, is_chinese_char c = true → compose c = Except.ok () := by
    intro c hc hct
    rw [hall c hc] at hct
    exact absurd hct (by simp)
  have h2 := (mainLoop_all_ok fetch compose no_dl chars [] hok).1
  have hcp : collectedPaths chars = [] := by
    unfold collectedPaths
    rw [List.filter_eq_nil_iff.mpr (fun c hc => by simp [hall c hc])]
    rfl
  simp [mainRun, h2, hcp]

/-- Witness for C6: combining no inputs over the sample store succeeds
with a zero-page document, and the batch on the single non-CJK
character "a" still reaches the combine step with no paths. -/
theorem claims_C6_witness :
    combine_worksheets sampleStore [] "output/combined_worksheet.pdf" =
      Except.ok (⟨[]⟩, [("output/combined_worksheet.pdf", SaveMode.compaction)])
    ∧ Event.combineCalled [] ∈ (mainRun fetchOk okCompose false ["a"]).1 :=
  ⟨(claims_C6 sampleStore "output/combined_worksheet.pdf").1,
   (claims_C6 sampleStore "output/combined_worksheet.pdf").2.2 fetchOk okCompose false
     ["a"] (by decide)⟩

/-- C10: on a loaded document with at least one page, both overlay
operations leave the page count unchanged and leave every page other
than the page at index 0 untouched. -/
theorem claims_C10 : ∀ (fs : DocStore) (input output : String) (doc : PDFDoc),
    fs input = some doc →
    (∀ text rect doc2 ev,
      add_text_to_pdf fs input text rect output = Except.ok (doc2, ev) →
        doc2.pages.length = doc.pages.length ∧
          ∀ i, i ≠ 0 → doc2.pages[i]? = doc.pages[i]?)
    ∧ (∀ image_file doc2 ev,
      add_image_to_pdf fs input image_file output = Except.ok (doc2, ev) →
        doc2.pages.length = doc.pages.length ∧
          ∀ i, i ≠ 0 → doc2.pages[i]? = doc.pages[i]?) := by
  intro fs input output doc hfs
  constructor
  · intro text rect doc2 ev h
    cases hp : doc.pages with
    | nil => simp [add_text_to_pdf, hfs, hp] at h
    | cons page rest =>
      simp only [add_text_to_pdf, hfs, hp, Except.ok.injEq, Prod.mk.injEq] at h
      obtain ⟨h1, _⟩ := h
      subst h1
      refine ⟨by simp [hp], ?_⟩
      intro i hi
      match i with
      | 0 => exact absurd rfl hi
      | Nat.succ j => simp [hp]
  · intro image_file doc2 ev h
    cases hp : doc.pages with
    | nil => simp [add_image_to_pdf, hfs, hp] at h
    | cons page rest =>
      simp only [add_image_to_pdf, hfs, hp, Except.ok.injEq, Prod.mk.injEq] at h
      obtain ⟨h1, _⟩ := h
      subst h1
      refine ⟨by simp [hp], ?_⟩
      intro i hi
      match i with
      | 0 => exact absurd rfl hi
      | Nat.succ j => simp [hp]

/-- Witness for C10: overlaying text onto the stored two-page sample
document keeps its page count and its second page. -/
theorem claims_C10_witness :
    (⟨⟨(mkPage "B1").bound, (mkPage "B1").contents ++ [Content.text pinyin_rect "t"]⟩ ::
        [mkPage "B2"]⟩ : PDFDoc).pages.length = docB.pages.length
    ∧ (⟨⟨(mkPage "B1").bound, (mkPage "B1").contents ++ [Content.text pinyin_rect "t"]⟩ ::
        [mkPage "B2"]⟩ : PDFDoc).pages[1]? = docB.pages[1]? := by
  have h := (claims_C10 sampleStore "output/b.pdf" "output/b.pdf" docB rfl).1 "t" pinyin_rect
    (⟨⟨(mkPage "B1").bound, (mkPage "B1").contents ++ [Content.text pinyin_rect "t"]⟩ ::
      [mkPage "B2"]⟩ : PDFDoc)
    ("output/b.pdf", SaveMode.incremental) (by simp [add_text_to_pdf, sampleStore, docB])
  exact ⟨h.1, h.2 1 (by simp)⟩

/-- C4 counterexample: with a composition oracle that raises
`DocumentLoadError` for every character, running the batch on the two
CJK characters 好 and 想 aborts at the first one: the propagated result
is the error, the combiner is never invoked, no composition succeeds,
and the trace contains no event at all for the second character —
refuting the claim that the batch continues and combine is still
invoked. -/
theorem claims_C4_counterexample :
    (mainRun fetchOk failCompose false ["好", "想"]).2 =
      Except.error PdfError.documentLoadError
    ∧ (mainRun fetchOk failCompose false ["好", "想"]).1.any isCombineEvent = false
    ∧ (mainRun fetchOk failCompose false ["好", "想"]).1.any isComposedEvent = false
    ∧ (mainRun fetchOk failCompose false ["好", "想"]).1 =
        [Event.appendedPath (worksheetPath "好"),
          Event.downloaded (image_url "好"), Event.downloaded (worksheet_url "好"),
          Event.composeFailed "好" PdfError.documentLoadError] :=
  ⟨rfl, rfl, rfl, rfl⟩

/-- C4 amended: a `DocumentLoadError` or `PageNotFoundError` raised
during composition propagates out of the orchestrator (no handler exists
in `main`): the run ends with that error, the combine step is never
invoked on an aborted run, and a classified character whose composition
fails ends the run immediately, with the remaining characters producing
no events. -/
theorem claims_C4_amended :
    (∀ (fetch : String → Option Bytes) (compose : String → Except PdfError Unit)
        (no_dl : Bool) (chars : List String),
      (mainRun fetch compose no_dl chars).2.isOk = false →
        (mainRun fetch compose no_dl chars).1.any isCombineEvent = false)
    ∧ (∀ fetch compose no_dl char rest e,
        is_chinese_char char = true → compose char = Except.error e →
          mainRun fetch compose no_dl (char :: rest) =
            (Event.appendedPath (worksheetPath char) ::
              charDownloadEvents fetch no_dl char ++ [Event.composeFailed char e],
              Except.error e)) := by
  constructor
  · intro fetch compose no_dl chars hfail
    cases hr : (mainLoop fetch compose no_dl chars []).2 with
    | error e =>
      simpa [mainRun, hr] using mainLoop_no_combine fetch compose no_dl chars []
    | ok paths =>
      exact absurd hfail (by simp [mainRun, hr, Except.isOk, Except.toBool])
  · intro fetch compose no_dl char rest e hc hg
    simp [mainRun, mainLoop, hc, hg]

/-- Witness for C4 amended: a failing composition of 好 ends the run
with the propagated error and the combiner is not invoked. -/
theorem claims_C4_witness :
    mainRun fetchOk failCompose false ["好"] =
      (Event.appendedPath (worksheetPath "好") :: charDownloadEvents fetchOk false "好" ++
        [Event.composeFailed "好" PdfError.documentLoadError],
        Except.error PdfError.documentLoadError)
    ∧ (mainRun fetchOk failCompose false ["好"]).1.any isCombineEvent = false :=
  ⟨claims_C4_amended.2 fetchOk failCompose false "好" [] PdfError.documentLoadError
      (by decide) rfl,
   claims_C4_amended.1 fetchOk failCompose false ["好"] rfl⟩

/-- C5 counterexample: with a composition oracle that always fails, the
batch on 想 appends the final worksheet path to the accumulator even
though no composition ever succeeds — refuting the claim that a path is
appended only after the composition of its character succeeds. -/
theorem claims_C5_counterexample :
    Event.appendedPath (worksheetPath "想") ∈ (mainRun fetchOk failCompose false ["想"]).1
    ∧ (mainRun fetchOk failCompose false ["想"]).1.any isComposedEvent = false := by
  constructor
  · decide
  · rfl

/-- C5 amended: a character failing classification contributes no path
and the loop continues; for a classified character the path is appended
to the accumulator first, before its composition runs and regardless of
the composition outcome; and when every composition succeeds, the
combiner is invoked with exactly the classified characters' paths in
collection order. -/
theorem claims_C5_amended :
    (∀ fetch compose no_dl char rest, is_chinese_char char = false →
      (mainRun fetch compose no_dl (char :: rest)).1 =
        Event.skippedNonChinese char :: (mainRun fetch compose no_dl rest).1)
    ∧ (∀ fetch compose no_dl char rest, is_chinese_char char = true →
      ∃ t, (mainRun fetch compose no_dl (char :: rest)).1 =
        Event.appendedPath (worksheetPath char) :: t)
    ∧ (∀ fetch compose no_dl chars,
      (∀ c ∈ chars, is_chinese_char c = true → compose c = Except.ok ()) →
        appendedOf (mainRun fetch compose no_dl chars).1 = collectedPaths chars
        ∧ Event.combineCalled (collectedPaths chars) ∈
            (mainRun fetch compose no_dl chars).1) := by
  refine ⟨?_, ?_, ?_⟩
  · intro fetch compose no_dl char rest hc
    have e1 : mainLoop fetch compose no_dl (char :: rest) [] =
        (Event.skippedNonChinese char :: (mainLoop fetch compose no_dl rest []).1,
          (mainLoop fetch compose no_dl rest []).2) := by
      simp [mainLoop, hc]
    cases hr : (mainLoop fetch compose no_dl rest []).2 with
    | error e => simp [mainRun, e1, hr]
    | ok paths => simp [mainRun, e1, hr]
  · intro fetch compose no_dl char rest hct
    cases hg : compose char with
    | error e =>
      exact ⟨charDownloadEvents fetch no_dl char ++ [Event.composeFailed char e],
        by simp [mainRun, mainLoop, hct, hg]⟩
    | ok u =>
      cases u
      cases hr : (mainLoop fetch compose no_dl rest [worksheetPath char]).2 with
      | error e2 =>
        exact ⟨charDownloadEvents fetch no_dl char ++ Event.composed char ::
            (mainLoop fetch compose no_dl rest [worksheetPath char]).1,
          by simp [mainRun, mainLoop, hct, hg, hr]⟩
      | ok paths =>
        exact ⟨charDownloadEvents fetch no_dl char ++ Event.composed char ::
            ((mainLoop fetch compose no_dl rest [worksheetPath char]).1 ++
              [Event.combineCalled paths]),
          by simp [mainRun, mainLoop, hct, hg, hr]⟩
  · intro fetch compose no_dl chars hok
    obtain ⟨ha, hb⟩ := mainLoop_all_ok fetch compose no_dl chars [] hok
    constructor
    · simp [mainRun, ha, appendedOf_append, hb]
    · simp [mainRun, ha]

/-- Witness for C5 amended: with every composition succeeding on the
list ["a", 好], the classified character 好 alone contributes a path and
the combiner receives exactly that path. -/
theorem claims_C5_witness :
    appendedOf (mainRun fetchOk okCompose false ["a", "好"]).1 =
      collectedPaths ["a", "好"]
    ∧ Event.combineCalled (collectedPaths ["a", "好"]) ∈
        (mainRun fetchOk okCompose false ["a", "好"]).1 :=
  claims_C5_amended.2.2 fetchOk okCompose false ["a", "好"] (fun _ _ _ => rfl)

/-- C7 counterexample: on the characters 好 and 想 with every fetch
failing and no template already on disk, the failed worksheet fetch is
swallowed by the download step, but the template file is then missing,
so composition raises `DocumentLoadError`, which propagates unhandled:
the run aborts with that error at the first character, the combiner is
never invoked, and the second character produces no events — refuting
the claim that a failed asset fetch never aborts the whole run and that
the batch continues past the affected character. -/
theorem claims_C7_counterexample :
    (mainRunFS fetchFail parseNone false (fun _ => "") [] emptyStore ["好", "想"]).2 =
      Except.error PdfError.documentLoadError
    ∧ (mainRunFS fetchFail parseNone false (fun _ => "") [] emptyStore
        ["好", "想"]).1.any isCombineEvent = false
    ∧ (mainRunFS fetchFail parseNone false (fun _ => "") [] emptyStore ["好", "想"]).1 =
        [Event.appendedPath (worksheetPath "好"),
          Event.downloadFailed (image_url "好"), Event.downloadFailed (worksheet_url "好"),
          Event.composeFailed "好" PdfError.documentLoadError] :=
  ⟨rfl, rfl, rfl⟩

/-- C7 amended: `download_binary` itself propagates no exception to its
caller — a failed fetch is only logged, nothing is written, and control
proceeds to the composition step of the affected character — but the
batch does not continue past that character: when the raw worksheet
fetch fails and no template is already present at its path, composition
reopens the missing file and raises `DocumentLoadError`, which
propagates unhandled and aborts the run, with the remaining characters
unprocessed and the combiner never invoked. -/
theorem claims_C7_amended :
    (∀ (fetch : String → Option Bytes) (url out_path : String),
      fetch url = none →
        download_binary fetch url out_path = ([], [Event.downloadFailed url]))
    ∧ (∀ fetch parsePdf pinyinOf entries fs char rest,
        is_chinese_char char = true →
        fetch (worksheet_url char) = none →
        fs (raw_worksheet_path char) = none →
          mainRunFS fetch parsePdf false pinyinOf entries fs (char :: rest) =
            (Event.appendedPath (worksheetPath char) ::
              charDownloadEvents fetch false char ++
                [Event.composeFailed char PdfError.documentLoadError],
              Except.error PdfError.documentLoadError)) := by
  constructor
  · intro fetch url out_path h
    simp [download_binary, h]
  · intro fetch parsePdf pinyinOf entries fs char rest hc hfetch hfs
    have hfs1 : worksheet_download_fs fetch parsePdf false char fs = fs := by
      simp [worksheet_download_fs, hfetch]
    have hcomp : process_raw_worksheet fs (raw_worksheet_path char) (pinyinOf char)
        (image_path char) (lookup_chinese char entries) (worksheetPath char) =
        Except.error PdfError.documentLoadError := by
      simp only [process_raw_worksheet, add_text_to_pdf, hfs]
      rfl
    simp [mainRunFS, mainLoopFS, hc, hfs1, hcomp]

/-- Witness for C7 amended: a failing fetch is logged without writing,
and the batch on 好 alone, with its worksheet fetch failing and an empty
disk, aborts with `DocumentLoadError`. -/
theorem claims_C7_witness :
    download_binary fetchFail "url" "out" = ([], [Event.downloadFailed "url"])
    ∧ mainRunFS fetchFail parseNone false (fun _ => "") [] emptyStore ["好"] =
        (Event.appendedPath (worksheetPath "好") ::
          charDownloadEvents fetchFail false "好" ++
            [Event.composeFailed "好" PdfError.documentLoadError],
          Except.error PdfError.documentLoadError) :=
  ⟨claims_C7_amended.1 fetchFail "url" "out" rfl,
   claims_C7_amended.2 fetchFail parseNone (fun _ => "") [] emptyStore "好" []
     (by decide) rfl rfl⟩

/-- C8 counterexample: the point (100, 497) lies strictly inside both
the pinyin rectangle (50, 50, 200, 500) and the definitions rectangle
(50, 495, 800, 800) — refuting the claim that the two rectangles share
no interior point. -/
theorem claims_C8_counterexample :
    pinyin_rect.interiorMem 100 497 ∧ definitions_rect.interiorMem 100 497 := by
  refine ⟨⟨?_, ?_, ?_, ?_⟩, ⟨?_, ?_, ?_, ?_⟩⟩ <;>
    norm_num [pinyin_rect, definitions_rect]

/-- C8 amended: the pinyin rectangle and the definitions rectangle are
not interior-disjoint; their interiors intersect exactly in the open
band 50 < x < 200, 495 < y < 500 (a strip 5 units tall where the bottom
of the pinyin region overlaps the top of the definitions region). -/
theorem claims_C8_amended : ∀ x y : ℚ,
    (pinyin_rect.interiorMem x y ∧ definitions_rect.interiorMem x y) ↔
      (50 < x ∧ x < 200 ∧ 495 < y ∧ y < 500) := by
  intro x y
  simp only [Rect.interiorMem, pinyin_rect, definitions_rect]
  constructor
  · rintro ⟨⟨h1, h2, h3, h4⟩, h5, h6, h7, h8⟩
    exact ⟨h1, h2, h7, h4⟩
  · rintro ⟨h1, h2, h3, h4⟩
    exact ⟨⟨h1, h2, by linarith, by linarith⟩, h1, by linarith, h3, by linarith⟩

/-- Witness for C8 amended: the point (150, 498) lies in the overlap
band and hence strictly inside both rectangles. -/
theorem claims_C8_witness :
    pinyin_rect.interiorMem 150 498 ∧ definitions_rect.interiorMem 150 498 :=
  (claims_C8_amended 150 498).mpr (by norm_num)

end ChineseWorksheets
